import Mathlib

/-!
Verification of the N-body simulation core (particle store, initializer,
force evaluator, leapfrog integrator, batch loops, timeline interpolator).

The particle store packs each particle as 8 consecutive 32-bit floats:
[x, y, z, pad, vx, vy, vz, mass] (src/simulation/particleData.ts).  We model
a Float32Array as a `List α` over an abstract field of scalars (exact
arithmetic), and the simulation-level functions over a structured view
`Particle α` whose seven fields stand for the seven meaningful layout slots
(offset 3 is padding that no simulation function ever reads or writes).
-/

namespace NBody

/-- Layout constant from particleData.ts: 8 floats per particle. -/
def FLOATS_PER_PARTICLE : ℕ := 8

/-- Offset of the x coordinate inside a particle record. -/
def OFFSET_X : ℕ := 0

/-- Offset of the y coordinate. -/
def OFFSET_Y : ℕ := 1

/-- Offset of the z coordinate. -/
def OFFSET_Z : ℕ := 2

/-- Offset of the x velocity. -/
def OFFSET_VX : ℕ := 4

/-- Offset of the y velocity. -/
def OFFSET_VY : ℕ := 5

/-- Offset of the z velocity. -/
def OFFSET_VZ : ℕ := 6

/-- Offset of the mass. -/
def OFFSET_MASS : ℕ := 7

/-- The record argument of `setParticle` (particleData.ts): seven numeric
fields, the mass optional (`mass?: number`). -/
structure ParticleRecord (α : Type) where
  x : α
  y : α
  z : α
  vx : α
  vy : α
  vz : α
  mass : Option α

/-- `createParticleArray(numParticles)` from particleData.ts:
`new Float32Array(numParticles * FLOATS_PER_PARTICLE)`, i.e. a zero-filled
buffer of 8 floats per particle. -/
def createParticleArray (α : Type) [Zero α] (numParticles : ℕ) : List α :=
  List.replicate (numParticles * FLOATS_PER_PARTICLE) 0

/-- `setParticle(data, index, particle)` from particleData.ts: writes the six
position/velocity components and the mass (defaulted to 1 via `?? 1` when the
field is omitted) at their layout offsets.  `List.set` ignores out-of-range
indices exactly as a `Float32Array` store does. -/
def setParticle {α : Type} [One α] (data : List α) (index : ℕ)
    (particle : ParticleRecord α) : List α :=
  let offset := index * FLOATS_PER_PARTICLE
  ((((((data.set (offset + OFFSET_X) particle.x).set
      (offset + OFFSET_Y) particle.y).set
      (offset + OFFSET_Z) particle.z).set
      (offset + OFFSET_VX) particle.vx).set
      (offset + OFFSET_VY) particle.vy).set
      (offset + OFFSET_VZ) particle.vz).set
      (offset + OFFSET_MASS) (particle.mass.getD 1)

/-- A JavaScript number as observed by the batch generator: either an ordinary
(finite) value, modelled exactly by a rational, or the non-finite NaN.  JS
`isNaN` is the only non-finiteness test the source applies. -/
inductive JsNum where
  | num : ℚ → JsNum
  | nan : JsNum
deriving DecidableEq

/-- JS `isNaN` on a number (and on the `undefined` produced by an
out-of-range read, which we model as `nan`). -/
def jsIsNaN : JsNum → Bool
  | .nan => true
  | .num _ => false

instance : Add JsNum :=
  ⟨fun a b => match a, b with
    | .num x, .num y => .num (x + y)
    | _, _ => .nan⟩

instance : Sub JsNum :=
  ⟨fun a b => match a, b with
    | .num x, .num y => .num (x - y)
    | _, _ => .nan⟩

instance : Mul JsNum :=
  ⟨fun a b => match a, b with
    | .num x, .num y => .num (x * y)
    | _, _ => .nan⟩

/-- Division on `JsNum`.  The only divisors the modelled code paths produce are
nonzero (`saveInterval ≥ 1`); division by zero is collapsed to `nan`. -/
instance : Div JsNum :=
  ⟨fun a b => match a, b with
    | .num x, .num y => if y = 0 then .nan else .num (x / y)
    | _, _ => .nan⟩

instance : Zero JsNum := ⟨.num 0⟩

instance : One JsNum := ⟨.num 1⟩

instance : NatCast JsNum := ⟨fun n => .num n⟩

/-- The value a JavaScript typed-array read yields when the index is out of
range (`undefined`, which behaves as NaN under arithmetic and `isNaN`).  For
the exact-arithmetic instances the theorems keep every index in bounds, so the
choice there is irrelevant. -/
class OobRead (α : Type) where
  oobValue : α

instance : OobRead JsNum := ⟨.nan⟩

instance : OobRead ℚ := ⟨0⟩

instance : OobRead ℝ := ⟨0⟩

/-- An indexed read `data[k]` from a typed array. -/
def jsRead {α : Type} [OobRead α] (data : List α) (k : ℕ) : α :=
  data.getD k OobRead.oobValue

section Interp

variable {α : Type} [Add α] [Sub α] [Mul α] [Div α] [Zero α] [One α]
  [NatCast α] [OobRead α]

/-- One intermediate frame of `interpolateSnapshots` (nbody.ts): for each
particle the six position/velocity components are `snap1[..] * (1 - t) +
snap2[..] * t` with `t = j / saveInterval`, the mass is copied from `snap1`,
and the padding slot at offset 3 keeps the zero of `createParticleArray`. -/
def interpolatedFrame (snap1 snap2 : List α) (j saveInterval numParticles : ℕ) :
    List α :=
  let t : α := (j : α) / (saveInterval : α)
  let oneMinusT : α := 1 - t
  (List.range numParticles).flatMap fun p =>
    let o := p * FLOATS_PER_PARTICLE
    [jsRead snap1 (o + OFFSET_X) * oneMinusT + jsRead snap2 (o + OFFSET_X) * t,
     jsRead snap1 (o + OFFSET_Y) * oneMinusT + jsRead snap2 (o + OFFSET_Y) * t,
     jsRead snap1 (o + OFFSET_Z) * oneMinusT + jsRead snap2 (o + OFFSET_Z) * t,
     0,
     jsRead snap1 (o + OFFSET_VX) * oneMinusT + jsRead snap2 (o + OFFSET_VX) * t,
     jsRead snap1 (o + OFFSET_VY) * oneMinusT + jsRead snap2 (o + OFFSET_VY) * t,
     jsRead snap1 (o + OFFSET_VZ) * oneMinusT + jsRead snap2 (o + OFFSET_VZ) * t,
     jsRead snap1 (o + OFFSET_MASS)]

/-- `interpolateSnapshots(snapshots, saveInterval, numParticles)` (nbody.ts):
each sampled snapshot is emitted verbatim, followed by `saveInterval - 1`
interpolated frames towards the next snapshot; the final snapshot closes the
sequence. -/
def interpolateSnapshots (snapshots : List (List α))
    (saveInterval numParticles : ℕ) : List (List α) :=
  ((List.range (snapshots.length - 1)).flatMap fun i =>
    snapshots.getD i [] ::
      (List.range' 1 (saveInterval - 1)).map fun j =>
        interpolatedFrame (snapshots.getD i []) (snapshots.getD (i + 1) [])
          j saveInterval numParticles)
  ++ [snapshots.getD (snapshots.length - 1) []]

end Interp

/-- `GPU_POS_X = OFFSET_X` (nbody.ts): the one flat index the GPU batch loop
inspects for NaN. -/
def GPU_POS_X : ℕ := OFFSET_X

/-- `convertGPUDataToCompact(gpuData)` (nbody.ts): `new Float32Array(gpuData)`,
a value copy of the readback. -/
def convertGPUDataToCompact (gpuData : List JsNum) : List JsNum := gpuData

section GPU

variable (σ : Type) (stepF : σ → σ) (readF : σ → List JsNum)

/-- The readback `sim.getParticleData()` observed at absolute step `u` of the
GPU batch loop, when the loop was entered at step counter `st` with device
state `s`: the in-loop readback at step `u` happens after `u + 1 - st`
applications of `sim.step`.  The device-side dynamics (WGSL compute kernels)
are abstracted as the pair `stepF`/`readF`. -/
def readAfter (s : σ) (st u : ℕ) : List JsNum := readF (stepF^[u + 1 - st] s)

/-- Whether the NaN check of `generateNBodyGPU` fires at save step `u`:
`isNaN(gpuData[GPU_POS_X])` on the readback at that step. -/
def isBadStep (s : σ) (st u : ℕ) : Bool :=
  jsIsNaN (jsRead (readAfter σ stepF readF s st u) GPU_POS_X)

/-- The stepping loop of `generateNBodyGPU` (nbody.ts): every iteration calls
`sim.step`; at save steps (`step % 5 === 0`, `saveInterval = 5` is a local
constant) it reads the particle data back, aborts returning the snapshots
collected so far when `isNaN(gpuData[GPU_POS_X])`, and otherwise archives the
converted readback.  The Boolean records whether the NaN abort fired. -/
def gpuLoop (s : σ) (st rem : ℕ) (snaps : List (List JsNum)) :
    List (List JsNum) × Bool :=
  match rem with
  | 0 => (snaps, false)
  | r + 1 =>
    let s1 := stepF s
    if st % 5 = 0 then
      let gpuData := readF s1
      if jsIsNaN (jsRead gpuData GPU_POS_X) then (snaps, true)
      else gpuLoop s1 (st + 1) r (snaps ++ [convertGPUDataToCompact gpuData])
    else gpuLoop s1 (st + 1) r snaps

/-- Result of a GPU batch run: the sparse `snapshots` list, the returned frame
sequence, and whether the NaN abort fired. -/
structure GpuRunResult where
  sparse : List (List JsNum)
  frames : List (List JsNum)
  aborted : Bool

/-- `generateNBodyGPU(options)` (nbody.ts): archive the initial readback, run
`numSnapshots` integration steps archiving every fifth readback (aborting on
the NaN check), then — unless the run aborted or fewer than two snapshots were
collected — interpolate the sparse list into the dense frame sequence. -/
def generateNBodyGPU (s0 : σ) (numSnapshots numParticles : ℕ) : GpuRunResult :=
  let res := gpuLoop σ stepF readF s0 0 numSnapshots
    [convertGPUDataToCompact (readF s0)]
  if res.2 then ⟨res.1, res.1, true⟩
  else if res.1.length < 2 then ⟨res.1, res.1, false⟩
  else ⟨res.1, interpolateSnapshots res.1 5 numParticles, false⟩

end GPU

/-- The device-readback oracle of the C1 counterexample run: the initial
readback is all zeros; every later readback carries NaN in the x-velocity slot
while particle 0's x stays finite. -/
def c1Reads : ℕ → List JsNum := fun k =>
  if k = 0 then [.num 0, .num 0, .num 0, .num 0, .num 0, .num 0]
  else [.num 1, .num 2, .num 3, .nan, .num 0, .num 0]

/-- The structured view of one packed particle: the seven meaningful slots of
the 8-float layout [x, y, z, pad, vx, vy, vz, mass] (`x`,`y`,`z` at offsets
0-2, `vx`,`vy`,`vz` at offsets 4-6, `mass` at offset 7; offset 3 is padding
that no simulation function reads or writes). -/
structure Particle (α : Type) where
  x : α
  y : α
  z : α
  vx : α
  vy : α
  vz : α
  mass : α
deriving DecidableEq

instance {α : Type} [Zero α] : Inhabited (Particle α) :=
  ⟨⟨0, 0, 0, 0, 0, 0, 0⟩⟩

/-- A 3-vector of scalars (a force accumulator slot), as nested pairs so the
componentwise additive-group structure comes from `Prod`. -/
abbrev Vec3 (α : Type) : Type := α × α × α

/-- The running total mass accumulated by the center-of-mass loops of
particleData.ts. -/
def totalMass {α : Type} [Field α] (data : List (Particle α)) : α :=
  (data.map fun p => p.mass).sum

/-- `getCenterOfMassVelocity(data)` (particleData.ts): the mass-weighted
average velocity. -/
def getCenterOfMassVelocity {α : Type} [Field α] (data : List (Particle α)) :
    Vec3 α :=
  (((data.map fun p => p.vx * p.mass).sum) / totalMass data,
   ((data.map fun p => p.vy * p.mass).sum) / totalMass data,
   ((data.map fun p => p.vz * p.mass).sum) / totalMass data)

/-- `removeCenterOfMassVelocity(data)` (particleData.ts): subtracts the
center-of-mass velocity from every particle's velocity, leaving positions and
masses untouched. -/
def removeCenterOfMassVelocity {α : Type} [Field α]
    (data : List (Particle α)) : List (Particle α) :=
  let comVel := getCenterOfMassVelocity data
  data.map fun p =>
    { p with vx := p.vx - comVel.1, vy := p.vy - comVel.2.1,
             vz := p.vz - comVel.2.2 }

/-- `cloneParticleData(data)` (particleData.ts): a value copy; in the pure
model an identity on the value. -/
def cloneParticleData {α : Type} (data : List (Particle α)) :
    List (Particle α) := data

/-- `softeningSq = softening * softening` with `softening = 2.0`
(computeForcesCPU, nbody.ts). -/
def softeningSq (α : Type) [Field α] : α := 2 * 2

/-- The softened squared distance `r2 = dx·dx + dy·dy + dz·dz + softeningSq`
between particles `i` and `j` (computeForcesCPU, nbody.ts). -/
def pairR2 {α : Type} [Field α] (particles : List (Particle α)) (i j : ℕ) :
    α :=
  let a := particles.getD i default
  let b := particles.getD j default
  let dx := b.x - a.x
  let dy := b.y - a.y
  let dz := b.z - a.z
  dx * dx + dy * dy + dz * dz + softeningSq α

/-- The pairwise force contribution of the inner loop of `computeForcesCPU`
(nbody.ts): `f = (G·mᵢ·mⱼ) / (r2·r)` with `G = 1.0` and `r = sqrt(r2)`, and
components `(f·dx, f·dy, f·dz)`.  `sqrtF` stands for `Math.sqrt`. -/
def pairForce {α : Type} [Field α] (sqrtF : α → α)
    (particles : List (Particle α)) (i j : ℕ) : Vec3 α :=
  let a := particles.getD i default
  let b := particles.getD j default
  let dx := b.x - a.x
  let dy := b.y - a.y
  let dz := b.z - a.z
  let r2 := pairR2 particles i j
  let r := sqrtF r2
  let f := (1 * a.mass * b.mass) / (r2 * r)
  (f * dx, f * dy, f * dz)

/-- `computeForcesCPU(particles, forces, numParticles)` (nbody.ts): zero the
accumulator, then for `i` from 0 and `j` from `i+1` accumulate `+f` for `i`
(in the local variables `fx_i`,`fy_i`,`fz_i`, written back after the inner
loop) and `-f` for `j` (directly into the accumulator).  The force accumulator
is modelled as a total function from particle index to `Vec3`. -/
def computeForcesCPU {α : Type} [Field α] (sqrtF : α → α)
    (particles : List (Particle α)) : ℕ → Vec3 α :=
  (List.range particles.length).foldl
    (fun forces i =>
      let inner :=
        (List.range' (i + 1) (particles.length - (i + 1))).foldl
          (fun acc j =>
            let f := pairForce sqrtF particles i j
            (acc.1 + f, Function.update acc.2 j (acc.2 j - f)))
          ((0 : Vec3 α), forces)
      Function.update inner.2 i (inner.2 i + inner.1))
    fun _ => 0

/-- Proof scaffolding: the net effect of one inner-loop iteration of
`computeForcesCPU` on the accumulator, as a single pointwise update
(`+f` at `i`, `-f` at `j`). -/
def applyPairForce {α : Type} [Field α] (pf : ℕ → ℕ → Vec3 α)
    (F : ℕ → Vec3 α) (i j : ℕ) : ℕ → Vec3 α :=
  fun a => if a = i then F a + pf i j else if a = j then F a - pf i j else F a

/-- Proof scaffolding: the ordered list of index pairs `(i, j)` with
`i < j < n` that the symmetric double loop of `computeForcesCPU` visits. -/
def pairList (n : ℕ) : List (ℕ × ℕ) :=
  (List.range n).flatMap fun i =>
    (List.range' (i + 1) (n - (i + 1))).map fun j => (i, j)

/-- Proof scaffolding: the contribution of the visit of pair `(i, j)` to the
accumulator slot of particle `a`. -/
def pairContrib {α : Type} [Field α] (pf : ℕ → ℕ → Vec3 α) (a : ℕ)
    (p : ℕ × ℕ) : Vec3 α :=
  if a = p.1 then pf p.1 p.2 else if a = p.2 then -pf p.1 p.2 else 0

/-- The reference force of the specification: for all i,
`F(i) = Σ_{j≠i} G·mᵢ·mⱼ·(pⱼ-pᵢ) / (|pⱼ-pᵢ|² + ε²)^{3/2}` with `G = 1` and
softening `ε = 2`. -/
noncomputable def refForce (particles : List (Particle ℝ)) (i : ℕ) : Vec3 ℝ :=
  ∑ j ∈ (Finset.range particles.length).erase i,
    (let a := particles.getD i default
     let b := particles.getD j default
     let dx := b.x - a.x
     let dy := b.y - a.y
     let dz := b.z - a.z
     let denom := (dx ^ 2 + dy ^ 2 + dz ^ 2 + 2 ^ 2) ^ ((3 : ℝ) / 2)
     ((1 * a.mass * b.mass * dx) / denom,
      (1 * a.mass * b.mass * dy) / denom,
      (1 * a.mass * b.mass * dz) / denom))

/-- The fused Kick½+Drift pass of `generateNBodyCPU` (nbody.ts): per particle,
`v += (F/m)·Δt/2` (with `invMass = 1/mass` and `dtHalf = Δt·0.5`), then
`p += v·Δt` using the just-updated velocity. -/
def kickDriftPass {α : Type} [Field α] (deltaT : α)
    (particles : List (Particle α)) (forces : ℕ → Vec3 α) :
    List (Particle α) :=
  let dtHalf := deltaT * (1 / 2)
  (List.range particles.length).map fun i =>
    let p := particles.getD i default
    let invMass := 1 / p.mass
    let ax := (forces i).1 * invMass
    let ay := (forces i).2.1 * invMass
    let az := (forces i).2.2 * invMass
    let vx := p.vx + ax * dtHalf
    let vy := p.vy + ay * dtHalf
    let vz := p.vz + az * dtHalf
    { x := p.x + vx * deltaT, y := p.y + vy * deltaT, z := p.z + vz * deltaT,
      vx := vx, vy := vy, vz := vz, mass := p.mass }

/-- The closing Kick½ pass of `generateNBodyCPU` (nbody.ts): per particle,
`v += (F/m)·Δt/2` with the freshly recomputed forces; positions untouched. -/
def kickPass {α : Type} [Field α] (deltaT : α)
    (particles : List (Particle α)) (forces : ℕ → Vec3 α) :
    List (Particle α) :=
  let dtHalf := deltaT * (1 / 2)
  (List.range particles.length).map fun i =>
    let p := particles.getD i default
    let invMass := 1 / p.mass
    let ax := (forces i).1 * invMass
    let ay := (forces i).2.1 * invMass
    let az := (forces i).2.2 * invMass
    { p with vx := p.vx + ax * dtHalf, vy := p.vy + ay * dtHalf,
             vz := p.vz + az * dtHalf }

/-- The loop state of the CPU batch generator: current particle buffer, the
force accumulator carried across steps, the archived snapshots, and a count of
the `computeForcesCPU` evaluations performed so far. -/
structure CpuSimState (α : Type) where
  particles : List (Particle α)
  forces : ℕ → Vec3 α
  snapshots : List (List (Particle α))
  forceEvals : ℕ

/-- One iteration of the step loop of `generateNBodyCPU` (nbody.ts): archive a
clone of the current buffer; fused Kick½+Drift using the carried forces (they
are not recomputed here); one `computeForcesCPU` evaluation at the new
positions; closing Kick½ with the new forces; `removeCenterOfMassVelocity`
every 10 steps. -/
def cpuStep {α : Type} [Field α] (sqrtF : α → α) (deltaT : α) (stepIdx : ℕ)
    (st : CpuSimState α) : CpuSimState α :=
  let snaps := st.snapshots ++ [cloneParticleData st.particles]
  let afterDrift := kickDriftPass deltaT st.particles st.forces
  let newForces := computeForcesCPU sqrtF afterDrift
  let afterKick := kickPass deltaT afterDrift newForces
  let final := if stepIdx % 10 = 0 then removeCenterOfMassVelocity afterKick
    else afterKick
  ⟨final, newForces, snaps, st.forceEvals + 1⟩

/-- The CPU batch run after `k` steps (nbody.ts): the initial forces are
computed once before the loop (`forceEvals = 1`), then `cpuStep` is iterated.
The `chunkSize` batching of the source only interleaves progress callbacks and
does not affect the state. -/
def cpuSim {α : Type} [Field α] (sqrtF : α → α) (deltaT : α)
    (ps0 : List (Particle α)) : ℕ → CpuSimState α
  | 0 => ⟨ps0, computeForcesCPU sqrtF ps0, [], 1⟩
  | k + 1 => cpuStep sqrtF deltaT k (cpuSim sqrtF deltaT ps0 k)

/-- One pass of the orbiting-particle loop of `initializeNBodyParticles`
(initialization.ts): the particle is placed at radius
`r ∈ [minRadius, maxRadius]` and angle `θ`, with z-jitter, and given the
circular orbital velocity for the enclosed mass plus noise.  `sqrtF`, `cosF`,
`sinF`, `piVal` stand for `Math.sqrt/cos/sin/PI`; `randF k` is the value of
the k-th `Math.random()` call (each particle consumes six draws, in source
order r, θ, z, vx-noise, vy-noise, vz-noise).  The numeric literals 0.5 and
0.2 appear as 1/2 and 1/5. -/
def orbitalParticle {α : Type} [LinearOrderedField α]
    (sqrtF cosF sinF : α → α) (piVal : α) (randF : ℕ → α)
    (numParticles i : ℕ) : Particle α :=
  let scale := max 1 (sqrtF ((numParticles : α) / 5000))
  let minRadius := 20 * scale
  let maxRadius := 80 * scale
  let zScale := 5 * scale
  let k := 6 * (i - 1)
  let r := minRadius + randF k * (maxRadius - minRadius)
  let theta := randF (k + 1) * piVal * 2
  let z := (randF (k + 2) - 1 / 2) * zScale
  let x := r * cosF theta
  let y := r * sinF theta
  let cloudMassInside :=
    ((numParticles - 1 : ℕ) : α) * 1 * ((r - minRadius) / (maxRadius - minRadius))
  let enclosedMass := 5000 + cloudMassInside
  let v := sqrtF (1 * enclosedMass / r)
  let vx := -v * sinF theta + (randF (k + 3) - 1 / 2) * (1 / 2)
  let vy := v * cosF theta + (randF (k + 4) - 1 / 2) * (1 / 2)
  let vz := (randF (k + 5) - 1 / 2) * (1 / 5)
  ⟨x, y, z, vx, vy, vz, 1⟩

/-- The particle buffer built by the initialization loop, before the final
momentum correction: the central star at index 0, `orbitalParticle` at the
other indices. -/
def initBodies {α : Type} [LinearOrderedField α] (sqrtF cosF sinF : α → α)
    (piVal : α) (randF : ℕ → α) (numParticles : ℕ) : List (Particle α) :=
  (List.range numParticles).map fun i =>
    if i = 0 then ⟨0, 0, 0, 0, 0, 0, 5000⟩
    else orbitalParticle sqrtF cosF sinF piVal randF numParticles i

/-- `initializeNBodyParticles(numParticles)` (initialization.ts): particle 0
is the central star at the origin with mass 5000, particles 1..n-1 come from
the orbiting-particle loop, and finally `removeCenterOfMassVelocity` zeroes
the net momentum. -/
def initializeNBodyParticles {α : Type} [LinearOrderedField α]
    (sqrtF cosF sinF : α → α) (piVal : α) (randF : ℕ → α)
    (numParticles : ℕ) : List (Particle α) :=
  removeCenterOfMassVelocity
    (initBodies sqrtF cosF sinF piVal randF numParticles)

/-- The radius parameter `r = minRadius + random()·(maxRadius - minRadius)`
drawn for non-central particle `i` by `initializeNBodyParticles`. -/
def orbitalRadius {α : Type} [LinearOrderedField α] (sqrtF : α → α)
    (randF : ℕ → α) (numParticles i : ℕ) : α :=
  let scale := max 1 (sqrtF ((numParticles : α) / 5000))
  20 * scale + randF (6 * (i - 1)) * (80 * scale - 20 * scale)

/-- `generateNBodyCPU(options)` (nbody.ts): initialize the particles, then run
the step loop; every step's buffer is archived, and the snapshot list is
returned without interpolation (the CPU path archives every step). -/
def generateNBodyCPU {α : Type} [LinearOrderedField α]
    (sqrtF cosF sinF : α → α) (piVal : α) (randF : ℕ → α)
    (numParticles numSnapshots : ℕ) (deltaT : α) :
    List (List (Particle α)) :=
  (cpuSim sqrtF deltaT
    (initializeNBodyParticles sqrtF cosF sinF piVal randF numParticles)
    numSnapshots).snapshots

/-- Reading a mapped range list: `((range n).map f).getD i d` is `f i` in
range and the default out of range. -/
theorem getD_range_map {β : Type} (f : ℕ → β) (n i : ℕ) (d : β) :
    ((List.range n).map f).getD i d = if i < n then f i else d := by
  rw [List.getD_eq_getElem?_getD, List.getElem?_map]
  by_cases h : i < n
  · simp [List.getElem?_range, h]
  · rw [List.getElem?_eq_none (by simpa using not_lt.mp h)]
    simp [h]

/-- `removeCenterOfMassVelocity` keeps the buffer length. -/
theorem removeCOMV_length {α : Type} [Field α] (data : List (Particle α)) :
    (removeCenterOfMassVelocity data).length = data.length := by
  simp [removeCenterOfMassVelocity]

/-- `removeCenterOfMassVelocity` does not modify positions or masses. -/
theorem removeCOMV_proj {α : Type} [Field α] (data : List (Particle α))
    (i : ℕ) :
    ((removeCenterOfMassVelocity data).getD i default).x
        = (data.getD i default).x ∧
    ((removeCenterOfMassVelocity data).getD i default).y
        = (data.getD i default).y ∧
    ((removeCenterOfMassVelocity data).getD i default).z
        = (data.getD i default).z ∧
    ((removeCenterOfMassVelocity data).getD i default).mass
        = (data.getD i default).mass := by
  simp only [removeCenterOfMassVelocity, List.getD_eq_getElem?_getD,
    List.getElem?_map]
  cases data[i]? <;> simp

/-- Maps that keep the mass keep the total mass; specialised to
`removeCenterOfMassVelocity`. -/
theorem totalMass_removeCOMV {α : Type} [Field α]
    (data : List (Particle α)) :
    totalMass (removeCenterOfMassVelocity data) = totalMass data := by
  simp only [totalMass, removeCenterOfMassVelocity, List.map_map]
  rfl

/-- Splitting a mass-weighted sum of shifted velocities. -/
theorem sum_sub_mul_mass {α : Type} [Field α] (data : List (Particle α))
    (v : Particle α → α) (c : α) :
    (data.map fun p => (v p - c) * p.mass).sum
      = (data.map fun p => v p * p.mass).sum - c * totalMass data := by
  induction data with
  | nil => simp [totalMass]
  | cons p ps ih =>
    simp only [List.map_cons, List.sum_cons, totalMass] at ih ⊢
    rw [ih]
    ring

/-- Claim C8: for every particle buffer with positive total mass, the
center-of-mass velocity after `removeCenterOfMassVelocity` is exactly zero
over exact arithmetic; in particular, immediately after
`initializeNBodyParticles(n)` every axis component of the center-of-mass
velocity has magnitude below 1e-5 (it is exactly zero). -/
theorem removeCOMV_zeroes_momentum (α : Type) [LinearOrderedField α] :
    (∀ data : List (Particle α), 0 < totalMass data →
      getCenterOfMassVelocity (removeCenterOfMassVelocity data)
        = ((0 : α), (0 : α), (0 : α))) ∧
    ∀ (sqrtF cosF sinF : α → α) (piVal : α) (randF : ℕ → α) (n : ℕ),
      1 ≤ n →
      |(getCenterOfMassVelocity
          (initializeNBodyParticles sqrtF cosF sinF piVal randF n)).1|
          < 1 / 100000 ∧
      |(getCenterOfMassVelocity
          (initializeNBodyParticles sqrtF cosF sinF piVal randF n)).2.1|
          < 1 / 100000 ∧
      |(getCenterOfMassVelocity
          (initializeNBodyParticles sqrtF cosF sinF piVal randF n)).2.2|
          < 1 / 100000 := by
  have main : ∀ data : List (Particle α), 0 < totalMass data →
      getCenterOfMassVelocity (removeCenterOfMassVelocity data)
        = ((0 : α), (0 : α), (0 : α)) := by
    intro data hM
    have hM0 : totalMass data ≠ 0 := ne_of_gt hM
    have hsub : ∀ v : Particle α → α,
        ((removeCenterOfMassVelocity data).map fun p => v p * p.mass)
          = data.map fun p =>
              (v ({ p with
                vx := p.vx - (getCenterOfMassVelocity data).1,
                vy := p.vy - (getCenterOfMassVelocity data).2.1,
                vz := p.vz - (getCenterOfMassVelocity data).2.2
                : Particle α}) * p.mass) := by
      intro v
      simp only [removeCenterOfMassVelocity, List.map_map]
      rfl
    have hvx :
        ((removeCenterOfMassVelocity data).map fun p => p.vx * p.mass).sum
          = 0 := by
      rw [hsub fun p => p.vx]
      simp only []
      rw [show (data.map fun p =>
          (p.vx - (getCenterOfMassVelocity data).1) * p.mass)
          = data.map fun p => ((fun q => q.vx) p - (getCenterOfMassVelocity data).1) * p.mass from rfl,
        sum_sub_mul_mass]
      simp only [getCenterOfMassVelocity]
      field_simp
    have hvy :
        ((removeCenterOfMassVelocity data).map fun p => p.vy * p.mass).sum
          = 0 := by
      rw [hsub fun p => p.vy]
      simp only []
      rw [show (data.map fun p =>
          (p.vy - (getCenterOfMassVelocity data).2.1) * p.mass)
          = data.map fun p => ((fun q => q.vy) p - (getCenterOfMassVelocity data).2.1) * p.mass from rfl,
        sum_sub_mul_mass]
      simp only [getCenterOfMassVelocity]
      field_simp
    have hvz :
        ((removeCenterOfMassVelocity data).map fun p => p.vz * p.mass).sum
          = 0 := by
      rw [hsub fun p => p.vz]
      simp only []
      rw [show (data.map fun p =>
          (p.vz - (getCenterOfMassVelocity data).2.2) * p.mass)
          = data.map fun p => ((fun q => q.vz) p - (getCenterOfMassVelocity data).2.2) * p.mass from rfl,
        sum_sub_mul_mass]
      simp only [getCenterOfMassVelocity]
      field_simp
    simp [getCenterOfMassVelocity, hvx, hvy, hvz]
  refine ⟨main, ?_⟩
  intro sqrtF cosF sinF piVal randF n hn
  have hpos : 0 < totalMass (initBodies sqrtF cosF sinF piVal randF n) := by
    apply List.sum_pos
    · intro a ha
      simp only [initBodies, totalMass, List.map_map, List.mem_map,
        List.mem_range, Function.comp] at ha
      obtain ⟨i, hi, hqi⟩ := ha
      rw [← hqi]
      by_cases h0 : i = 0 <;> simp [h0, orbitalParticle]
    · have hne : n ≠ 0 := by omega
      simp [totalMass, initBodies, hne]
  have hzero := main _ hpos
  simp only [initializeNBodyParticles, hzero]
  norm_num

/-- Witness for C8 at concrete inputs: a two-particle rational buffer, and the
initializer at n = 1 with all library functions stubbed to zero. -/
theorem removeCOMV_zeroes_momentum_witness :
    getCenterOfMassVelocity (removeCenterOfMassVelocity
        [(⟨0, 0, 0, 1, 2, 3, 2⟩ : Particle ℚ), ⟨1, 1, 1, 5, 5, 5, 3⟩])
      = ((0 : ℚ), (0 : ℚ), (0 : ℚ)) ∧
    |(getCenterOfMassVelocity
        (initializeNBodyParticles (α := ℚ) (fun _ => 0) (fun _ => 0)
          (fun _ => 0) 0 (fun _ => 0) 1)).1| < 1 / 100000 :=
  ⟨(removeCOMV_zeroes_momentum ℚ).1 _ (by norm_num [totalMass]),
   ((removeCOMV_zeroes_momentum ℚ).2 (fun _ => 0) (fun _ => 0) (fun _ => 0) 0
      (fun _ => 0) 1 (by norm_num)).1⟩

/-- Claim C6: for every n ≥ 1, particle 0 of the buffer returned by
`initializeNBodyParticles(n)` has position exactly (0, 0, 0) and mass exactly
5000, and this survives the final `removeCenterOfMassVelocity`, which modifies
no position or mass. -/
theorem init_central_particle (α : Type) [LinearOrderedField α]
    (sqrtF cosF sinF : α → α) (piVal : α) (randF : ℕ → α) (n : ℕ)
    (hn : 1 ≤ n) :
    ((initializeNBodyParticles sqrtF cosF sinF piVal randF n).getD 0
        default).x = 0 ∧
    ((initializeNBodyParticles sqrtF cosF sinF piVal randF n).getD 0
        default).y = 0 ∧
    ((initializeNBodyParticles sqrtF cosF sinF piVal randF n).getD 0
        default).z = 0 ∧
    ((initializeNBodyParticles sqrtF cosF sinF piVal randF n).getD 0
        default).mass = 5000 ∧
    ∀ (data : List (Particle α)) (i : ℕ),
      ((removeCenterOfMassVelocity data).getD i default).x
          = (data.getD i default).x ∧
      ((removeCenterOfMassVelocity data).getD i default).y
          = (data.getD i default).y ∧
      ((removeCenterOfMassVelocity data).getD i default).z
          = (data.getD i default).z ∧
      ((removeCenterOfMassVelocity data).getD i default).mass
          = (data.getD i default).mass := by
  have h0 : 0 < n := hn
  have hb : (initBodies sqrtF cosF sinF piVal randF n).getD 0 default
      = (⟨0, 0, 0, 0, 0, 0, 5000⟩ : Particle α) := by
    rw [initBodies, getD_range_map]
    simp [h0]
  obtain ⟨px, py, pz, pm⟩ :=
    removeCOMV_proj (initBodies sqrtF cosF sinF piVal randF n) 0
  simp only [initializeNBodyParticles]
  rw [px, py, pz, pm, hb]
  exact ⟨rfl, rfl, rfl, rfl, fun data i => removeCOMV_proj data i⟩

/-- Witness for C6: the initializer at n = 1 over ℚ with stubbed library
functions. -/
theorem init_central_particle_witness :
    ((initializeNBodyParticles (α := ℚ) (fun _ => 0) (fun _ => 0)
        (fun _ => 0) 0 (fun _ => 0) 1).getD 0 default).x = 0 ∧
    ((initializeNBodyParticles (α := ℚ) (fun _ => 0) (fun _ => 0)
        (fun _ => 0) 0 (fun _ => 0) 1).getD 0 default).y = 0 ∧
    ((initializeNBodyParticles (α := ℚ) (fun _ => 0) (fun _ => 0)
        (fun _ => 0) 0 (fun _ => 0) 1).getD 0 default).z = 0 ∧
    ((initializeNBodyParticles (α := ℚ) (fun _ => 0) (fun _ => 0)
        (fun _ => 0) 0 (fun _ => 0) 1).getD 0 default).mass = 5000 := by
  have h := init_central_particle ℚ (fun _ => 0) (fun _ => 0) (fun _ => 0) 0
    (fun _ => 0) 1 (by norm_num)
  exact ⟨h.1, h.2.1, h.2.2.1, h.2.2.2.1⟩

/-- Claim C7: for every n ≥ 2 and every sequence of random draws in [0,1),
each non-central particle produced by `initializeNBodyParticles(n)` is placed
at a radius r with minR(n) ≤ r ≤ maxR(n), where minR(n) = 20·scale,
maxR(n) = 80·scale and scale = max(1, sqrt(n/5000)); moreover the particle's
planar distance from the origin equals that radius (x² + y² = r²). -/
theorem init_radius_bounds (sqrtF cosF sinF : ℝ → ℝ) (piVal : ℝ)
    (randF : ℕ → ℝ) (n : ℕ) (hs : ∀ x, 0 ≤ x → sqrtF x = Real.sqrt x)
    (hpyth : ∀ t, cosF t ^ 2 + sinF t ^ 2 = 1)
    (hrand : ∀ k, 0 ≤ randF k ∧ randF k < 1) (hn : 2 ≤ n) (i : ℕ)
    (h1 : 1 ≤ i) (h2 : i < n) :
    20 * max 1 (Real.sqrt ((n : ℝ) / 5000)) ≤ orbitalRadius sqrtF randF n i ∧
    orbitalRadius sqrtF randF n i ≤
      80 * max 1 (Real.sqrt ((n : ℝ) / 5000)) ∧
    ((initializeNBodyParticles sqrtF cosF sinF piVal randF n).getD i
        default).x ^ 2 +
      ((initializeNBodyParticles sqrtF cosF sinF piVal randF n).getD i
        default).y ^ 2 = orbitalRadius sqrtF randF n i ^ 2 := by
  have hsq : sqrtF ((n : ℝ) / 5000) = Real.sqrt ((n : ℝ) / 5000) :=
    hs _ (by positivity)
  have hs1 : (1 : ℝ) ≤ max 1 (sqrtF ((n : ℝ) / 5000)) := le_max_left _ _
  have hr0 := (hrand (6 * (i - 1))).1
  have hr1 := (hrand (6 * (i - 1))).2
  have hrad : orbitalRadius sqrtF randF n i
      = 20 * max 1 (sqrtF ((n : ℝ) / 5000)) + randF (6 * (i - 1)) *
        (80 * max 1 (sqrtF ((n : ℝ) / 5000)) -
          20 * max 1 (sqrtF ((n : ℝ) / 5000))) := rfl
  refine ⟨?_, ?_, ?_⟩
  · rw [← hsq, hrad]
    nlinarith [mul_nonneg hr0 (by nlinarith :
      (0:ℝ) ≤ 80 * max 1 (sqrtF ((n : ℝ) / 5000)) -
        20 * max 1 (sqrtF ((n : ℝ) / 5000)))]
  · rw [← hsq, hrad]
    nlinarith [mul_le_of_le_one_left (by nlinarith :
      (0:ℝ) ≤ 80 * max 1 (sqrtF ((n : ℝ) / 5000)) -
        20 * max 1 (sqrtF ((n : ℝ) / 5000))) hr1.le]
  · have hne : i ≠ 0 := by omega
    have hb : (initBodies sqrtF cosF sinF piVal randF n).getD i default
        = orbitalParticle sqrtF cosF sinF piVal randF n i := by
      rw [initBodies, getD_range_map]
      simp [h2, hne]
    obtain ⟨px, py, _, _⟩ :=
      removeCOMV_proj (initBodies sqrtF cosF sinF piVal randF n) i
    simp only [initializeNBodyParticles]
    rw [px, py, hb]
    have hxe : (orbitalParticle sqrtF cosF sinF piVal randF n i).x
        = orbitalRadius sqrtF randF n i *
          cosF (randF (6 * (i - 1) + 1) * piVal * 2) := rfl
    have hye : (orbitalParticle sqrtF cosF sinF piVal randF n i).y
        = orbitalRadius sqrtF randF n i *
          sinF (randF (6 * (i - 1) + 1) * piVal * 2) := rfl
    rw [hxe, hye]
    have hp := hpyth (randF (6 * (i - 1) + 1) * piVal * 2)
    nlinarith [hp]

/-- Witness for C7: n = 2, i = 1, the real library functions and the constant
draw 1/2. -/
theorem init_radius_bounds_witness :
    20 * max 1 (Real.sqrt ((2 : ℝ) / 5000)) ≤
      orbitalRadius Real.sqrt (fun _ => 1 / 2) 2 1 ∧
    orbitalRadius Real.sqrt (fun _ => 1 / 2) 2 1 ≤
      80 * max 1 (Real.sqrt ((2 : ℝ) / 5000)) ∧
    ((initializeNBodyParticles Real.sqrt Real.cos Real.sin Real.pi
        (fun _ => 1 / 2) 2).getD 1 default).x ^ 2 +
      ((initializeNBodyParticles Real.sqrt Real.cos Real.sin Real.pi
        (fun _ => 1 / 2) 2).getD 1 default).y ^ 2
      = orbitalRadius Real.sqrt (fun _ => 1 / 2) 2 1 ^ 2 :=
  init_radius_bounds Real.sqrt Real.cos Real.sin Real.pi (fun _ => 1 / 2) 2
    (fun _ _ => rfl) (fun t => Real.cos_sq_add_sin_sq t)
    (fun _ => ⟨by norm_num, by norm_num⟩) (by norm_num) 1 (by norm_num)
    (by norm_num)

/-- Claim C9: for every buffer whose particles all have positive mass, an
integration step divides by zero nowhere: the softened squared distance
satisfies `pairR2 ≥ ε² = 4 > 0` even at zero separation, so the force
denominator `r2·r = pairR2·sqrt(pairR2)` of `pairForce` is positive, and the
per-particle division by mass in the kick stages has a nonzero divisor. -/
theorem step_no_division_by_zero (ps : List (Particle ℝ))
    (hm : ∀ p ∈ ps, 0 < p.mass) (i j : ℕ) (hi : i < ps.length) :
    4 ≤ pairR2 ps i j ∧
    0 < pairR2 ps i j * Real.sqrt (pairR2 ps i j) ∧
    (ps.getD i default).mass ≠ 0 := by
  have h4 : 4 ≤ pairR2 ps i j := by
    simp only [pairR2, softeningSq]
    nlinarith [mul_self_nonneg ((ps.getD j default).x - (ps.getD i default).x),
      mul_self_nonneg ((ps.getD j default).y - (ps.getD i default).y),
      mul_self_nonneg ((ps.getD j default).z - (ps.getD i default).z)]
  have hpos : 0 < pairR2 ps i j := by linarith
  refine ⟨h4, mul_pos hpos (Real.sqrt_pos.mpr hpos), ?_⟩
  rw [List.getD_eq_getElem _ _ hi]
  exact ne_of_gt (hm _ (List.getElem_mem hi))

/-- Witness for C9: two coincident particles (zero separation) with masses 1
and 5000. -/
theorem step_no_division_by_zero_witness :
    4 ≤ pairR2 [(⟨0, 0, 0, 0, 0, 0, 1⟩ : Particle ℝ), ⟨0, 0, 0, 0, 0, 0, 5000⟩] 0 1 ∧
    0 < pairR2 [(⟨0, 0, 0, 0, 0, 0, 1⟩ : Particle ℝ), ⟨0, 0, 0, 0, 0, 0, 5000⟩] 0 1 *
      Real.sqrt (pairR2 [(⟨0, 0, 0, 0, 0, 0, 1⟩ : Particle ℝ), ⟨0, 0, 0, 0, 0, 0, 5000⟩] 0 1) ∧
    (([(⟨0, 0, 0, 0, 0, 0, 1⟩ : Particle ℝ), ⟨0, 0, 0, 0, 0, 0, 5000⟩]).getD 0
        default).mass ≠ 0 :=
  step_no_division_by_zero _
    (by
      intro p hp
      simp only [List.mem_cons, List.not_mem_nil, or_false] at hp
      rcases hp with h | h <;> rw [h] <;> norm_num)
    0 1 (by norm_num)

/-- Summing a constant over a list. -/
theorem sum_map_const {β : Type} (l : List β) (c : ℕ) :
    (l.map fun _ => c).sum = l.length * c := by
  induction l with
  | nil => simp
  | cons a l ih => simp [ih, Nat.succ_mul]; omega

section InterpLemmas

variable {α : Type} [Add α] [Sub α] [Mul α] [Div α] [Zero α] [One α]
  [NatCast α] [OobRead α]

/-- The flatMap part of `interpolateSnapshots` contributes `saveInterval`
frames per gap. -/
theorem interpolateBlocks_length (snaps : List (List α)) (si n : ℕ)
    (hsi : 1 ≤ si) :
    ((List.range (snaps.length - 1)).flatMap fun i =>
      snaps.getD i [] ::
        (List.range' 1 (si - 1)).map fun j =>
          interpolatedFrame (snaps.getD i []) (snaps.getD (i + 1) [])
            j si n).length = (snaps.length - 1) * si := by
  rw [List.length_flatMap]
  have hone : ∀ i : ℕ,
      (snaps.getD i [] ::
        (List.range' 1 (si - 1)).map fun j =>
          interpolatedFrame (snaps.getD i []) (snaps.getD (i + 1) [])
            j si n).length = si := by
    intro i
    simp [List.length_range']
    omega
  calc ((List.range (snaps.length - 1)).map fun i =>
        (snaps.getD i [] ::
          (List.range' 1 (si - 1)).map fun j =>
            interpolatedFrame (snaps.getD i []) (snaps.getD (i + 1) [])
              j si n).length).sum
      = ((List.range (snaps.length - 1)).map fun _ => si).sum := by
        exact congrArg List.sum (List.map_congr_left fun i _ => hone i)
    _ = (snaps.length - 1) * si := by
        rw [sum_map_const, List.length_range]

/-- Helper for C4: the length law of `interpolateSnapshots`. -/
theorem interpolateSnapshots_length (snaps : List (List α)) (si n : ℕ)
    (hsi : 1 ≤ si) :
    (interpolateSnapshots snaps si n).length
      = (snaps.length - 1) * si + 1 := by
  rw [interpolateSnapshots, List.length_append,
    interpolateBlocks_length snaps si n hsi]
  simp

end InterpLemmas

/-- Indexing a flatMap of uniform-length blocks over `range'`. -/
theorem getD_flatMap_uniform {β : Type} (f : ℕ → List β) (c : ℕ)
    (hc : ∀ i, (f i).length = c) (s m q r : ℕ) (hq : q < m) (hr : r < c)
    (d : β) :
    ((List.range' s m).flatMap f).getD (q * c + r) d = (f (s + q)).getD r d := by
  induction m generalizing s q with
  | zero => omega
  | succ m ih =>
    rw [List.range'_succ, List.flatMap_cons]
    cases q with
    | zero =>
      rw [List.getD_append _ _ _ _ (by rw [hc]; omega)]
      simp
    | succ q =>
      rw [List.getD_append_right _ _ _ _
        (by rw [hc, Nat.succ_mul]; omega)]
      rw [hc, show (q + 1) * c + r - c = q * c + r from by
        rw [Nat.succ_mul]; omega]
      rw [show s + (q + 1) = (s + 1) + q from by omega]
      exact ih (s + 1) q (by omega)

/-- Reading a mapped `range'` list. -/
theorem getD_range'_map {β : Type} (g : ℕ → β) (s m i : ℕ) (d : β) :
    ((List.range' s m).map g).getD i d = if i < m then g (s + i) else d := by
  rw [List.getD_eq_getElem?_getD, List.getElem?_map]
  by_cases h : i < m
  · simp [List.getElem?_range', h]
  · rw [List.getElem?_eq_none (by simpa using not_lt.mp h)]
    simp [h]

/-- takeWhile only depends on the predicate's values on the list. -/
theorem takeWhile_congr_mem {β : Type} (p q : β → Bool) (l : List β)
    (h : ∀ x ∈ l, p x = q x) : l.takeWhile p = l.takeWhile q := by
  induction l with
  | nil => rfl
  | cons a l ih =>
    rw [List.takeWhile_cons, List.takeWhile_cons, h a (by simp)]
    by_cases hq : q a = true
    · rw [if_pos hq, if_pos hq, ih fun x hx => h x (by simp [hx])]
    · rw [if_neg hq, if_neg hq]

/-- any only depends on the predicate's values on the list. -/
theorem any_congr_mem {β : Type} (p q : β → Bool) (l : List β)
    (h : ∀ x ∈ l, p x = q x) : l.any p = l.any q := by
  induction l with
  | nil => rfl
  | cons a l ih =>
    rw [List.any_cons, List.any_cons, h a (by simp),
      ih fun x hx => h x (by simp [hx])]

/-- Stepping the device once and entering the loop one counter later reads
the same data at every later absolute step. -/
theorem readAfter_shift (σ : Type) (stepF : σ → σ) (readF : σ → List JsNum)
    (s : σ) (st u : ℕ) (h : st ≤ u) :
    readAfter σ stepF readF (stepF s) (st + 1) u
      = readAfter σ stepF readF s st u := by
  unfold readAfter
  rw [show u + 1 - st = (u - st) + 1 from by omega,
    show u + 1 - (st + 1) = u - st from by omega,
    Function.iterate_succ_apply]

/-- The NaN check likewise shifts. -/
theorem isBadStep_shift (σ : Type) (stepF : σ → σ) (readF : σ → List JsNum)
    (s : σ) (st u : ℕ) (h : st ≤ u) :
    isBadStep σ stepF readF (stepF s) (st + 1) u
      = isBadStep σ stepF readF s st u := by
  unfold isBadStep
  rw [readAfter_shift σ stepF readF s st u h]

/-- Characterization of the GPU stepping loop: it archives the converted
readbacks of the save steps up to (and excluding) the first one whose
particle-0 x-slot is NaN, and reports whether such a step exists in the
window. -/
theorem gpuLoop_eq (σ : Type) (stepF : σ → σ) (readF : σ → List JsNum)
    (s : σ) (st rem : ℕ) (snaps : List (List JsNum)) :
    gpuLoop σ stepF readF s st rem snaps =
      (snaps ++ (((List.range' st rem).filter fun u => u % 5 = 0).takeWhile
          fun u => ! isBadStep σ stepF readF s st u).map
          fun u => convertGPUDataToCompact (readAfter σ stepF readF s st u),
       ((List.range' st rem).filter fun u => u % 5 = 0).any
          fun u => isBadStep σ stepF readF s st u) := by
  induction rem generalizing s st snaps with
  | zero => simp [gpuLoop]
  | succ r ih =>
    have hmem : ∀ u ∈ (List.range' (st + 1) r).filter fun u => u % 5 = 0,
        st ≤ u := by
      intro u hu
      have := List.mem_range'_1.mp (List.mem_of_mem_filter hu)
      omega
    have hbadc : ∀ u ∈ (List.range' (st + 1) r).filter fun u => u % 5 = 0,
        isBadStep σ stepF readF (stepF s) (st + 1) u
          = isBadStep σ stepF readF s st u := fun u hu =>
      isBadStep_shift σ stepF readF s st u (hmem u hu)
    have hreadc : ∀ u ∈ ((List.range' (st + 1) r).filter
          fun u => u % 5 = 0).takeWhile
          fun u => ! isBadStep σ stepF readF s st u,
        convertGPUDataToCompact (readAfter σ stepF readF (stepF s) (st + 1) u)
          = convertGPUDataToCompact (readAfter σ stepF readF s st u) := by
      intro u hu
      rw [readAfter_shift σ stepF readF s st u
        (hmem u (((List.takeWhile_sublist _).mem hu)))]
    have hhead : jsIsNaN (jsRead (readF (stepF s)) GPU_POS_X)
        = isBadStep σ stepF readF s st st := by
      unfold isBadStep readAfter
      rw [show st + 1 - st = 1 from by omega, Function.iterate_one]
    have hheadr : readF (stepF s) = readAfter σ stepF readF s st st := by
      unfold readAfter
      rw [show st + 1 - st = 1 from by omega, Function.iterate_one]
    have hbadc' : ∀ u ∈ (List.range' (st + 1) r).filter fun u => u % 5 = 0,
        (fun u => ! isBadStep σ stepF readF (stepF s) (st + 1) u) u
          = (fun u => ! isBadStep σ stepF readF s st u) u := by
      intro u hu
      simp only [hbadc u hu]
    simp only [gpuLoop]
    rw [hhead, hheadr, List.range'_succ]
    by_cases h5 : st % 5 = 0
    · rw [if_pos h5]
      have hfil : decide (st % 5 = 0) = true := by simpa using h5
      by_cases hb : isBadStep σ stepF readF s st st = true
      · rw [if_pos hb, List.filter_cons, if_pos hfil, List.takeWhile_cons,
          if_neg (show ¬ ((fun u => ! isBadStep σ stepF readF s st u) st
            = true) from by simp [hb]),
          List.any_cons, hb]
        simp
      · rw [if_neg hb, ih (stepF s) (st + 1)]
        rw [takeWhile_congr_mem _ _ _ hbadc', List.map_congr_left hreadc,
          any_congr_mem _ _ _ hbadc]
        rw [List.filter_cons, if_pos hfil, List.takeWhile_cons,
          if_pos (show ((fun u => ! isBadStep σ stepF readF s st u) st
            = true) from by simp [eq_false_of_ne_true hb]),
          List.any_cons, eq_false_of_ne_true hb, List.map_cons]
        simp [List.append_assoc]
    · rw [if_neg h5]
      have hfil : ¬ (decide (st % 5 = 0) = true) := by simpa using h5
      rw [ih (stepF s) (st + 1)]
      rw [takeWhile_congr_mem _ _ _ hbadc', List.map_congr_left hreadc,
        any_congr_mem _ _ _ hbadc]
      rw [List.filter_cons, if_neg hfil]

/-- The frame of `interpolateSnapshots` at display index `k·saveInterval + j`
(for a non-final gap `k` and `j < saveInterval`): the archived snapshot itself
at `j = 0`, the interpolated frame otherwise. -/
theorem interpolateSnapshots_getD (snaps : List (List ℚ)) (si n : ℕ)
    (hsi : 1 ≤ si) (k j : ℕ) (hk : k < snaps.length - 1) (hj : j < si) :
    (interpolateSnapshots snaps si n).getD (k * si + j) [] =
      if j = 0 then snaps.getD k []
      else interpolatedFrame (snaps.getD k []) (snaps.getD (k + 1) [])
        j si n := by
  have hblock : ∀ i : ℕ,
      (snaps.getD i [] ::
        (List.range' 1 (si - 1)).map fun j =>
          interpolatedFrame (snaps.getD i []) (snaps.getD (i + 1) [])
            j si n).length = si := by
    intro i
    simp [List.length_range']
    omega
  rw [interpolateSnapshots,
    List.getD_append _ _ _ _ (by
      rw [interpolateBlocks_length snaps si n hsi]
      have h1 : k * si + j < (k + 1) * si := by rw [Nat.succ_mul]; omega
      have h2 : (k + 1) * si ≤ (snaps.length - 1) * si :=
        Nat.mul_le_mul_right si (by omega)
      omega),
    List.range_eq_range',
    getD_flatMap_uniform _ si hblock 0 (snaps.length - 1) k j hk hj]
  simp only [Nat.zero_add]
  cases j with
  | zero => simp
  | succ jj =>
    rw [List.getD_cons_succ, getD_range'_map]
    rw [if_pos (by omega), show 1 + jj = jj + 1 from by omega]
    simp

/-- The final frame of `interpolateSnapshots` is the final snapshot. -/
theorem interpolateSnapshots_getD_last (snaps : List (List ℚ)) (si n : ℕ)
    (hsi : 1 ≤ si) :
    (interpolateSnapshots snaps si n).getD ((snaps.length - 1) * si) []
      = snaps.getD (snaps.length - 1) [] := by
  rw [interpolateSnapshots,
    List.getD_append_right _ _ _ _
      (by rw [interpolateBlocks_length snaps si n hsi]),
    interpolateBlocks_length snaps si n hsi]
  simp

/-- Reading slot `r` of particle `p` from an interpolated frame. -/
theorem interpolatedFrame_block (s1 s2 : List ℚ) (j si n p r : ℕ)
    (hp : p < n) (hr : r < 8) :
    (interpolatedFrame s1 s2 j si n).getD (p * 8 + r) 0 =
      ([jsRead s1 (p * FLOATS_PER_PARTICLE + OFFSET_X)
          * (1 - (j : ℚ) / (si : ℚ))
          + jsRead s2 (p * FLOATS_PER_PARTICLE + OFFSET_X)
            * ((j : ℚ) / (si : ℚ)),
        jsRead s1 (p * FLOATS_PER_PARTICLE + OFFSET_Y)
          * (1 - (j : ℚ) / (si : ℚ))
          + jsRead s2 (p * FLOATS_PER_PARTICLE + OFFSET_Y)
            * ((j : ℚ) / (si : ℚ)),
        jsRead s1 (p * FLOATS_PER_PARTICLE + OFFSET_Z)
          * (1 - (j : ℚ) / (si : ℚ))
          + jsRead s2 (p * FLOATS_PER_PARTICLE + OFFSET_Z)
            * ((j : ℚ) / (si : ℚ)),
        0,
        jsRead s1 (p * FLOATS_PER_PARTICLE + OFFSET_VX)
          * (1 - (j : ℚ) / (si : ℚ))
          + jsRead s2 (p * FLOATS_PER_PARTICLE + OFFSET_VX)
            * ((j : ℚ) / (si : ℚ)),
        jsRead s1 (p * FLOATS_PER_PARTICLE + OFFSET_VY)
          * (1 - (j : ℚ) / (si : ℚ))
          + jsRead s2 (p * FLOATS_PER_PARTICLE + OFFSET_VY)
            * ((j : ℚ) / (si : ℚ)),
        jsRead s1 (p * FLOATS_PER_PARTICLE + OFFSET_VZ)
          * (1 - (j : ℚ) / (si : ℚ))
          + jsRead s2 (p * FLOATS_PER_PARTICLE + OFFSET_VZ)
            * ((j : ℚ) / (si : ℚ)),
        jsRead s1 (p * FLOATS_PER_PARTICLE + OFFSET_MASS)]).getD r 0 := by
  unfold interpolatedFrame
  rw [List.range_eq_range']
  refine (getD_flatMap_uniform _ 8 ?_ 0 n p r hp hr 0).trans ?_
  · intro i
    rfl
  · simp only [Nat.zero_add]

/-- takeWhile keeps everything when the predicate holds throughout. -/
theorem takeWhile_eq_of_all {β : Type} (p : β → Bool) (l : List β)
    (h : ∀ x ∈ l, p x = true) : l.takeWhile p = l := by
  induction l with
  | nil => rfl
  | cons a l ih =>
    rw [List.takeWhile_cons, if_pos (h a (by simp)),
      ih fun x hx => h x (by simp [hx])]

/-- Claim C4: for every sparse snapshot list of length len ≥ 2 and every
saveInterval ≥ 1, `interpolateSnapshots` returns exactly
(len-1)·saveInterval + 1 frames; concretely, a batch run of the GPU generator
over 50 steps (saveInterval = 5) that never trips the NaN check collects 11
sparse snapshots and returns 51 frames after interpolation. -/
theorem interpolation_frame_count :
    (∀ (snaps : List (List ℚ)) (si n : ℕ), 2 ≤ snaps.length → 1 ≤ si →
      (interpolateSnapshots snaps si n).length
        = (snaps.length - 1) * si + 1) ∧
    ∀ (σ : Type) (stepF : σ → σ) (readF : σ → List JsNum) (s0 : σ) (n : ℕ),
      (∀ u, isBadStep σ stepF readF s0 0 u = false) →
      (generateNBodyGPU σ stepF readF s0 50 n).sparse.length = 11 ∧
      (generateNBodyGPU σ stepF readF s0 50 n).frames.length = 51 := by
  refine ⟨fun snaps si n _ hsi =>
    interpolateSnapshots_length snaps si n hsi, ?_⟩
  intro σ stepF readF s0 n hgood
  have hW : ((List.range' 0 50).filter fun u => u % 5 = 0).length = 10 := by
    decide
  unfold generateNBodyGPU
  rw [gpuLoop_eq]
  have htw : (((List.range' 0 50).filter fun u => u % 5 = 0).takeWhile
      fun u => ! isBadStep σ stepF readF s0 0 u)
      = (List.range' 0 50).filter fun u => u % 5 = 0 :=
    takeWhile_eq_of_all _ _ fun x _ => by simp [hgood x]
  have hany : (((List.range' 0 50).filter fun u => u % 5 = 0).any
      fun u => isBadStep σ stepF readF s0 0 u) = false := by
    rw [List.any_eq_false]
    intro x _
    simp [hgood x]
  rw [htw, hany]
  simp only [Bool.false_eq_true, if_false]
  set L := [convertGPUDataToCompact (readF s0)] ++
      (((List.range' 0 50).filter fun u => u % 5 = 0).map
        fun u => convertGPUDataToCompact (readAfter σ stepF readF s0 0 u))
    with hLdef
  have hcl : L.length = 11 := by
    rw [hLdef, List.length_append, List.length_map, hW]
    rfl
  have h2 : ¬ (L.length < 2) := by rw [hcl]; norm_num
  rw [if_neg h2]
  refine ⟨hcl, ?_⟩
  show (interpolateSnapshots L 5 n).length = 51
  rw [interpolateSnapshots_length _ _ _ (by norm_num), hcl]

/-- Witness for C4: a concrete two-snapshot interpolation, and the GPU-loop
model with a benign constant readback. -/
theorem interpolation_frame_count_witness :
    (interpolateSnapshots [List.replicate 8 (0 : ℚ), List.replicate 8 1]
        5 1).length
      = (([List.replicate 8 (0 : ℚ), List.replicate 8 1]).length - 1) * 5 + 1 ∧
    (generateNBodyGPU Unit id (fun _ => [JsNum.num 0]) () 50 1).sparse.length
      = 11 ∧
    (generateNBodyGPU Unit id (fun _ => [JsNum.num 0]) () 50 1).frames.length
      = 51 := by
  have h2 := interpolation_frame_count.2 Unit id (fun _ => [JsNum.num 0]) ()
    1 fun u => rfl
  exact ⟨interpolation_frame_count.1
    [List.replicate 8 (0 : ℚ), List.replicate 8 1] 5 1 (by norm_num)
    (by norm_num), h2.1, h2.2⟩

/-- Claim C5: the interpolation boundary and shape laws.  First part: the
per-particle interpolation formula at t = 0 reproduces snapshot 1 on all seven
meaningful slots, and at t = 1 reproduces snapshot 2 on the position/velocity
slots while the mass slot is copied from snapshot 1.  Second part: every
output frame at an index that is a multiple of saveInterval is the
corresponding input snapshot verbatim.  Third part: the frame at index
k·saveInterval + j (1 ≤ j < saveInterval) is the interpolated frame of the
two surrounding snapshots.  Fourth part: an interpolated frame carries
s1·(1-t) + s2·t with t = j/saveInterval on each position/velocity slot and
s1's mass on the mass slot. -/
theorem interpolation_boundary_laws :
    (∀ (s1 s2 : List ℚ) (si n p : ℕ), 1 ≤ si → p < n →
      (∀ r, r < 8 → r ≠ 3 →
        (interpolatedFrame s1 s2 0 si n).getD (p * 8 + r) 0
          = jsRead s1 (p * 8 + r)) ∧
      (∀ r, r < 7 → r ≠ 3 →
        (interpolatedFrame s1 s2 si si n).getD (p * 8 + r) 0
          = jsRead s2 (p * 8 + r)) ∧
      (interpolatedFrame s1 s2 si si n).getD (p * 8 + 7) 0
        = jsRead s1 (p * 8 + 7)) ∧
    (∀ (snaps : List (List ℚ)) (si n : ℕ), 1 ≤ si →
      (∀ k, k < snaps.length - 1 →
        (interpolateSnapshots snaps si n).getD (k * si) []
          = snaps.getD k []) ∧
      (interpolateSnapshots snaps si n).getD ((snaps.length - 1) * si) []
        = snaps.getD (snaps.length - 1) []) ∧
    (∀ (snaps : List (List ℚ)) (si n k j : ℕ), 1 ≤ si →
      k < snaps.length - 1 → 1 ≤ j → j < si →
      (interpolateSnapshots snaps si n).getD (k * si + j) []
        = interpolatedFrame (snaps.getD k []) (snaps.getD (k + 1) [])
            j si n) ∧
    ∀ (s1 s2 : List ℚ) (j si n p : ℕ), p < n →
      (∀ r, r < 7 → r ≠ 3 →
        (interpolatedFrame s1 s2 j si n).getD (p * 8 + r) 0
          = jsRead s1 (p * 8 + r) * (1 - (j : ℚ) / (si : ℚ))
            + jsRead s2 (p * 8 + r) * ((j : ℚ) / (si : ℚ))) ∧
      (interpolatedFrame s1 s2 j si n).getD (p * 8 + 7) 0
        = jsRead s1 (p * 8 + 7) := by
  have hcomp : ∀ (s1 s2 : List ℚ) (j si n p : ℕ), p < n →
      (∀ r, r < 7 → r ≠ 3 →
        (interpolatedFrame s1 s2 j si n).getD (p * 8 + r) 0
          = jsRead s1 (p * 8 + r) * (1 - (j : ℚ) / (si : ℚ))
            + jsRead s2 (p * 8 + r) * ((j : ℚ) / (si : ℚ))) ∧
      (interpolatedFrame s1 s2 j si n).getD (p * 8 + 7) 0
        = jsRead s1 (p * 8 + 7) := by
    intro s1 s2 j si n p hp
    constructor
    · intro r hr7 hr3
      rw [interpolatedFrame_block s1 s2 j si n p r hp (by omega)]
      interval_cases r <;>
        simp_all [FLOATS_PER_PARTICLE, OFFSET_X, OFFSET_Y, OFFSET_Z,
          OFFSET_VX, OFFSET_VY, OFFSET_VZ]
    · rw [interpolatedFrame_block s1 s2 j si n p 7 hp (by omega)]
      simp [FLOATS_PER_PARTICLE, OFFSET_MASS]
  refine ⟨?_, ?_, ?_, hcomp⟩
  · intro s1 s2 si n p hsi hp
    have h := hcomp s1 s2 0 si n p hp
    have h1 := hcomp s1 s2 si si n p hp
    have hsi0 : ((si : ℚ)) ≠ 0 := Nat.cast_ne_zero.mpr (by omega)
    refine ⟨?_, ?_, h1.2⟩
    · intro r hr8 hr3
      by_cases hr7 : r < 7
      · rw [h.1 r hr7 hr3]
        simp
      · have : r = 7 := by omega
        subst this
        have := hcomp s1 s2 0 si n p hp
        exact this.2
    · intro r hr7 hr3
      rw [h1.1 r hr7 hr3, div_self hsi0]
      ring
  · intro snaps si n hsi
    constructor
    · intro k hk
      have h := interpolateSnapshots_getD snaps si n hsi k 0 hk (by omega)
      simpa using h
    · exact interpolateSnapshots_getD_last snaps si n hsi
  · intro snaps si n k j hsi hk hj1 hj
    have h := interpolateSnapshots_getD snaps si n hsi k j hk hj
    rw [if_neg (by omega)] at h
    exact h

/-- Witness for C5: concrete snapshots, saveInterval 2, one particle. -/
theorem interpolation_boundary_laws_witness :
    (interpolatedFrame (List.replicate 8 (2 : ℚ)) (List.replicate 8 4)
        0 2 1).getD (0 * 8 + 0) 0
      = jsRead (List.replicate 8 (2 : ℚ)) (0 * 8 + 0) ∧
    (interpolateSnapshots
        [List.replicate 8 (2 : ℚ), List.replicate 8 4] 2 1).getD
        ((([List.replicate 8 (2 : ℚ), List.replicate 8 4]).length - 1) * 2) []
      = ([List.replicate 8 (2 : ℚ), List.replicate 8 4]).getD
          (([List.replicate 8 (2 : ℚ), List.replicate 8 4]).length - 1) [] ∧
    (interpolateSnapshots
        [List.replicate 8 (2 : ℚ), List.replicate 8 4] 2 1).getD
        (0 * 2 + 1) []
      = interpolatedFrame (List.replicate 8 (2 : ℚ)) (List.replicate 8 4)
          1 2 1 :=
  ⟨(interpolation_boundary_laws.1 (List.replicate 8 2) (List.replicate 8 4)
      2 1 0 (by norm_num) (by norm_num)).1 0 (by norm_num) (by norm_num),
   (interpolation_boundary_laws.2.1
      [List.replicate 8 2, List.replicate 8 4] 2 1 (by norm_num)).2,
   interpolation_boundary_laws.2.2.1
      [List.replicate 8 2, List.replicate 8 4] 2 1 0 1 (by norm_num)
      (by norm_num) (by norm_num) (by norm_num)⟩

/-- Counterexample to C1 as stated: a GPU batch run whose second readback
carries NaN in the x-velocity slot (flat index 3 of the compact readback)
while particle 0's x stays finite.  The NaN check looks only at
`gpuData[GPU_POS_X]`, so the run does not abort, the corrupted snapshot is
archived, and the returned frame sequence contains non-finite values. -/
theorem gpu_nan_snapshot_included :
    (generateNBodyGPU ℕ Nat.succ c1Reads 0 1 1).aborted = false ∧
    (generateNBodyGPU ℕ Nat.succ c1Reads 0 1 1).sparse.any
        (fun b => b.any fun v => jsIsNaN v) = true ∧
    (generateNBodyGPU ℕ Nat.succ c1Reads 0 1 1).frames.any
        (fun b => b.any fun v => jsIsNaN v) = true := by
  decide

/-- Amended claim C1: the GPU batch run aborts early exactly when the check
`isNaN(gpuData[GPU_POS_X])` fires on the readback of a save step — i.e. only
NaN in particle 0's x slot is detected; in that case the returned list is
exactly the snapshots collected so far (the initial readback plus the save
steps strictly before the first bad one).  Non-finite values in any other
slot pass undetected (see the counterexample), and the CPU batch generator
performs no non-finite check at all: it always archives and returns one
snapshot per step. -/
theorem gpu_nan_abort_behaviour :
    (∀ (σ : Type) (stepF : σ → σ) (readF : σ → List JsNum) (s0 : σ)
        (numSnapshots numParticles : ℕ),
      generateNBodyGPU σ stepF readF s0 numSnapshots numParticles =
        (let W := (List.range' 0 numSnapshots).filter fun u => u % 5 = 0
         let collected := convertGPUDataToCompact (readF s0) ::
           (W.takeWhile fun u => ! isBadStep σ stepF readF s0 0 u).map
             fun u => convertGPUDataToCompact (readAfter σ stepF readF s0 0 u)
         if W.any fun u => isBadStep σ stepF readF s0 0 u then
           ⟨collected, collected, true⟩
         else if collected.length < 2 then ⟨collected, collected, false⟩
         else ⟨collected, interpolateSnapshots collected 5 numParticles,
           false⟩)) ∧
    ∀ (α : Type) [Field α] (sqrtF : α → α) (deltaT : α)
        (ps0 : List (Particle α)) (k : ℕ),
      (cpuSim sqrtF deltaT ps0 k).snapshots.length = k := by
  constructor
  · intro σ stepF readF s0 N n
    unfold generateNBodyGPU
    rw [gpuLoop_eq]
    simp only [List.singleton_append]
  · intro α inst sqrtF deltaT ps0 k
    induction k with
    | zero => rfl
    | succ k ih => simp [cpuSim, cpuStep, ih]

/-- `pairForce` reads only positions and masses. -/
theorem pairForce_congr {α : Type} [Field α] (sqrtF : α → α)
    (ps1 ps2 : List (Particle α))
    (h : ∀ i, (ps1.getD i default).x = (ps2.getD i default).x ∧
      (ps1.getD i default).y = (ps2.getD i default).y ∧
      (ps1.getD i default).z = (ps2.getD i default).z ∧
      (ps1.getD i default).mass = (ps2.getD i default).mass) (i j : ℕ) :
    pairForce sqrtF ps1 i j = pairForce sqrtF ps2 i j := by
  obtain ⟨hxi, hyi, hzi, hmi⟩ := h i
  obtain ⟨hxj, hyj, hzj, hmj⟩ := h j
  simp only [pairForce, pairR2, hxi, hyi, hzi, hmi, hxj, hyj, hzj, hmj]

/-- `computeForcesCPU` reads only positions and masses. -/
theorem computeForcesCPU_congr {α : Type} [Field α] (sqrtF : α → α)
    (ps1 ps2 : List (Particle α)) (hlen : ps1.length = ps2.length)
    (h : ∀ i, (ps1.getD i default).x = (ps2.getD i default).x ∧
      (ps1.getD i default).y = (ps2.getD i default).y ∧
      (ps1.getD i default).z = (ps2.getD i default).z ∧
      (ps1.getD i default).mass = (ps2.getD i default).mass) :
    computeForcesCPU sqrtF ps1 = computeForcesCPU sqrtF ps2 := by
  have hpf : ∀ i j, pairForce sqrtF ps1 i j = pairForce sqrtF ps2 i j :=
    fun i j => pairForce_congr sqrtF ps1 ps2 h i j
  unfold computeForcesCPU
  simp only [hpf, hlen]

/-- The closing kick keeps the buffer length. -/
theorem kickPass_length {α : Type} [Field α] (deltaT : α)
    (ps : List (Particle α)) (forces : ℕ → Vec3 α) :
    (kickPass deltaT ps forces).length = ps.length := by
  simp [kickPass]

/-- The closing kick does not modify positions or masses. -/
theorem kickPass_proj {α : Type} [Field α] (deltaT : α)
    (ps : List (Particle α)) (forces : ℕ → Vec3 α) (i : ℕ) :
    ((kickPass deltaT ps forces).getD i default).x
        = (ps.getD i default).x ∧
    ((kickPass deltaT ps forces).getD i default).y
        = (ps.getD i default).y ∧
    ((kickPass deltaT ps forces).getD i default).z
        = (ps.getD i default).z ∧
    ((kickPass deltaT ps forces).getD i default).mass
        = (ps.getD i default).mass := by
  unfold kickPass
  rw [getD_range_map]
  by_cases hi : i < ps.length
  · simp [hi]
  · rw [if_neg hi, List.getD_eq_default _ _ (by omega)]
    exact ⟨rfl, rfl, rfl, rfl⟩

/-- Claim C2: the fused leapfrog step of the CPU batch generator.  At every
step the carried force buffer equals a fresh `computeForcesCPU` evaluation at
the current positions (the evaluation of step k is reused as the initial
forces of step k+1, the initial evaluation happening once before the loop),
exactly one force evaluation is performed per step (`forceEvals = k + 1`
after k steps), and one step is exactly: fused Kick½+Drift with the carried
forces, one force re-evaluation at the new positions, Kick½ with the new
forces, and the periodic momentum correction. -/
theorem cpu_leapfrog_step_structure (α : Type) [Field α] (sqrtF : α → α)
    (deltaT : α) (ps0 : List (Particle α)) (k : ℕ) :
    (cpuSim sqrtF deltaT ps0 k).forces
      = computeForcesCPU sqrtF (cpuSim sqrtF deltaT ps0 k).particles ∧
    (cpuSim sqrtF deltaT ps0 k).forceEvals = k + 1 ∧
    (cpuSim sqrtF deltaT ps0 (k + 1)).particles
      = (let psK := (cpuSim sqrtF deltaT ps0 k).particles
         let afterDrift :=
           kickDriftPass deltaT psK (computeForcesCPU sqrtF psK)
         let afterKick :=
           kickPass deltaT afterDrift (computeForcesCPU sqrtF afterDrift)
         if k % 10 = 0 then removeCenterOfMassVelocity afterKick
         else afterKick) ∧
    (cpuSim sqrtF deltaT ps0 (k + 1)).snapshots
      = (cpuSim sqrtF deltaT ps0 k).snapshots
        ++ [cloneParticleData (cpuSim sqrtF deltaT ps0 k).particles] ∧
    (cpuSim sqrtF deltaT ps0 (k + 1)).forceEvals
      = (cpuSim sqrtF deltaT ps0 k).forceEvals + 1 := by
  have hinv : ∀ m, (cpuSim sqrtF deltaT ps0 m).forces
      = computeForcesCPU sqrtF (cpuSim sqrtF deltaT ps0 m).particles ∧
      (cpuSim sqrtF deltaT ps0 m).forceEvals = m + 1 := by
    intro m
    induction m with
    | zero => exact ⟨rfl, rfl⟩
    | succ m ih =>
      constructor
      · have hforces : (cpuSim sqrtF deltaT ps0 (m + 1)).forces
            = computeForcesCPU sqrtF (kickDriftPass deltaT
                (cpuSim sqrtF deltaT ps0 m).particles
                (cpuSim sqrtF deltaT ps0 m).forces) := rfl
        have hparts : (cpuSim sqrtF deltaT ps0 (m + 1)).particles
            = (if m % 10 = 0 then
                removeCenterOfMassVelocity (kickPass deltaT
                  (kickDriftPass deltaT (cpuSim sqrtF deltaT ps0 m).particles
                    (cpuSim sqrtF deltaT ps0 m).forces)
                  (computeForcesCPU sqrtF (kickDriftPass deltaT
                    (cpuSim sqrtF deltaT ps0 m).particles
                    (cpuSim sqrtF deltaT ps0 m).forces)))
              else kickPass deltaT
                  (kickDriftPass deltaT (cpuSim sqrtF deltaT ps0 m).particles
                    (cpuSim sqrtF deltaT ps0 m).forces)
                  (computeForcesCPU sqrtF (kickDriftPass deltaT
                    (cpuSim sqrtF deltaT ps0 m).particles
                    (cpuSim sqrtF deltaT ps0 m).forces))) := rfl
        rw [hforces, hparts]
        generalize kickDriftPass deltaT (cpuSim sqrtF deltaT ps0 m).particles
          (cpuSim sqrtF deltaT ps0 m).forces = AD
        by_cases hm : m % 10 = 0
        · rw [if_pos hm]
          refine computeForcesCPU_congr sqrtF _ _ ?_ ?_
          · rw [removeCOMV_length, kickPass_length]
          · intro i
            obtain ⟨r1, r2, r3, r4⟩ := removeCOMV_proj
              (kickPass deltaT AD (computeForcesCPU sqrtF AD)) i
            obtain ⟨k1, k2, k3, k4⟩ :=
              kickPass_proj deltaT AD (computeForcesCPU sqrtF AD) i
            exact ⟨by rw [r1, k1], by rw [r2, k2], by rw [r3, k3],
              by rw [r4, k4]⟩
        · rw [if_neg hm]
          refine computeForcesCPU_congr sqrtF _ _ ?_ ?_
          · rw [kickPass_length]
          · intro i
            obtain ⟨k1, k2, k3, k4⟩ :=
              kickPass_proj deltaT AD (computeForcesCPU sqrtF AD) i
            exact ⟨k1.symm, k2.symm, k3.symm, k4.symm⟩
      · show (cpuSim sqrtF deltaT ps0 m).forceEvals + 1 = m + 1 + 1
        rw [ih.2]
  refine ⟨(hinv k).1, (hinv k).2, ?_, rfl, rfl⟩
  show (cpuStep sqrtF deltaT k (cpuSim sqrtF deltaT ps0 k)).particles = _
  simp only [cpuStep]
  rw [(hinv k).1]

/-- The inner loop of `computeForcesCPU` — local accumulation for `i` plus
direct `-f` writes to each `j`, with the local total written back to slot `i`
after the loop — equals a fold of the per-pair two-slot updates. -/
theorem inner_fold_eq {α : Type} [Field α] (pf : ℕ → ℕ → Vec3 α) (i : ℕ) :
    ∀ (l : List ℕ), (∀ j ∈ l, j ≠ i) → ∀ (F : ℕ → Vec3 α) (v0 : Vec3 α),
    Function.update
      (l.foldl (fun acc j => (acc.1 + pf i j,
        Function.update acc.2 j (acc.2 j - pf i j))) (v0, F)).2 i
      ((l.foldl (fun acc j => (acc.1 + pf i j,
        Function.update acc.2 j (acc.2 j - pf i j))) (v0, F)).2 i
        + (l.foldl (fun acc j => (acc.1 + pf i j,
          Function.update acc.2 j (acc.2 j - pf i j))) (v0, F)).1)
    = l.foldl (fun F j => applyPairForce pf F i j)
        (Function.update F i (F i + v0)) := by
  intro l
  induction l with
  | nil =>
    intro _ F v0
    rfl
  | cons j l ihl =>
    intro hne F v0
    have hji : j ≠ i := hne j (by simp)
    rw [List.foldl_cons, List.foldl_cons]
    rw [ihl (fun x hx => hne x (by simp [hx]))]
    congr 1
    funext a
    unfold applyPairForce
    by_cases hai : a = i
    · subst hai
      rw [if_pos rfl, Function.update_same, Function.update_same,
        Function.update_noteq (Ne.symm hji), add_assoc]
    · rw [Function.update_noteq hai, if_neg hai]
      by_cases haj : a = j
      · subst haj
        rw [if_pos rfl, Function.update_same, Function.update_noteq hai]
      · rw [if_neg haj, Function.update_noteq hai, Function.update_noteq haj]

/-- Folding over a flatMap is the nested fold. -/
theorem foldl_flatMap_eq {β γ δ : Type} (l : List β) (f : β → List γ)
    (g : δ → γ → δ) (init : δ) :
    (l.flatMap f).foldl g init
      = l.foldl (fun acc b => (f b).foldl g acc) init := by
  induction l generalizing init with
  | nil => rfl
  | cons b l ih =>
    rw [List.flatMap_cons, List.foldl_append, ih, List.foldl_cons]

/-- A fold of two-slot pair updates acts pointwise as the sum of the pair
contributions. -/
theorem foldl_applyPairForce {α : Type} [Field α] (pf : ℕ → ℕ → Vec3 α) :
    ∀ (L : List (ℕ × ℕ)) (F0 : ℕ → Vec3 α) (a : ℕ),
    (L.foldl (fun F p => applyPairForce pf F p.1 p.2) F0) a
      = F0 a + (L.map fun p => pairContrib pf a p).sum := by
  intro L
  induction L with
  | nil => intro F0 a; simp
  | cons p L ih =>
    intro F0 a
    rw [List.foldl_cons, ih _ a, List.map_cons, List.sum_cons]
    have hstep : applyPairForce pf F0 p.1 p.2 a = F0 a + pairContrib pf a p := by
      unfold applyPairForce pairContrib
      by_cases h1 : a = p.1
      · rw [if_pos h1, if_pos h1]
      · rw [if_neg h1, if_neg h1]
        by_cases h2 : a = p.2
        · rw [if_pos h2, if_pos h2, sub_eq_add_neg]
        · rw [if_neg h2, if_neg h2, add_zero]
    rw [hstep, add_assoc]

/-- `computeForcesCPU` is the fold of the per-pair updates over the ordered
pair list of the symmetric double loop. -/
theorem computeForcesCPU_eq_foldPairs {α : Type} [Field α] (sqrtF : α → α)
    (ps : List (Particle α)) :
    computeForcesCPU sqrtF ps
      = (pairList ps.length).foldl
          (fun F p => applyPairForce (pairForce sqrtF ps) F p.1 p.2)
          fun _ => 0 := by
  simp only [computeForcesCPU, pairList]
  rw [foldl_flatMap_eq]
  congr 1
  funext F i
  rw [List.foldl_map]
  rw [inner_fold_eq (pairForce sqrtF ps) i
    (List.range' (i + 1) (ps.length - (i + 1)))
    (fun j hj => by have := List.mem_range'_1.mp hj; omega) F 0]
  rw [add_zero, Function.update_eq_self]

/-- Summing a function over a flatMap block by block. -/
theorem sum_map_flatMap {β γ M : Type} [AddCommMonoid M] (l : List β)
    (f : β → List γ) (g : γ → M) :
    ((l.flatMap f).map g).sum = (l.map fun b => ((f b).map g).sum).sum := by
  induction l with
  | nil => rfl
  | cons b l ih => simp [List.flatMap_cons, ih]

/-- A list sum over `range'` as a `Finset.Ico` sum. -/
theorem sum_map_range' {M : Type} [AddCommMonoid M] (g : ℕ → M) :
    ∀ (m s : ℕ), ((List.range' s m).map g).sum = ∑ j ∈ Finset.Ico s (s + m), g j := by
  intro m
  induction m with
  | zero => intro s; simp
  | succ m ih =>
    intro s
    rw [List.range'_succ, List.map_cons, List.sum_cons, ih (s + 1)]
    rw [Finset.sum_eq_sum_Ico_succ_bot (show s < s + (m + 1) from by omega)]
    congr 1
    rw [show s + (m + 1) = s + 1 + m from by omega]

/-- A list sum over `range` as a `Finset.range` sum. -/
theorem sum_map_range {M : Type} [AddCommMonoid M] (g : ℕ → M) (n : ℕ) :
    ((List.range n).map g).sum = ∑ j ∈ Finset.range n, g j := by
  rw [List.range_eq_range', sum_map_range' g n 0, Finset.range_eq_Ico]
  simp

/-- The total pair contribution to slot `a` over the symmetric double loop
equals the full sum over all partners, using the antisymmetry of the pairwise
force. -/
theorem sum_pairContrib {α : Type} [Field α] (pf : ℕ → ℕ → Vec3 α)
    (hanti : ∀ i j, pf j i = - pf i j) (n a : ℕ) (ha : a < n) :
    ((pairList n).map fun p => pairContrib pf a p).sum
      = ∑ j ∈ (Finset.range n).erase a, pf a j := by
  rw [pairList, sum_map_flatMap]
  have hinner : ∀ i : ℕ, i < n →
      ((((List.range' (i + 1) (n - (i + 1))).map fun j => (i, j)).map
        fun p => pairContrib pf a p).sum)
        = ∑ j ∈ Finset.Ico (i + 1) n, pairContrib pf a (i, j) := by
    intro i hi
    rw [List.map_map]
    rw [show ((fun p => pairContrib pf a p) ∘ fun j => (i, j))
        = fun j => pairContrib pf a (i, j) from rfl]
    rw [sum_map_range' _ (n - (i + 1)) (i + 1)]
    rw [show i + 1 + (n - (i + 1)) = n from by omega]
  rw [sum_map_range]
  rw [Finset.sum_congr rfl fun i hi =>
    hinner i (Finset.mem_range.mp hi)]
  have hterm : ∀ i ∈ Finset.range n,
      (∑ j ∈ Finset.Ico (i + 1) n, pairContrib pf a (i, j))
        = if i = a then ∑ j ∈ Finset.Ico (a + 1) n, pf a j
          else if i < a then - pf i a else 0 := by
    intro i _
    by_cases hia : i = a
    · subst hia
      rw [if_pos rfl]
      apply Finset.sum_congr rfl
      intro j _
      unfold pairContrib
      rw [if_pos rfl]
    · rw [if_neg hia]
      have hc : ∀ j ∈ Finset.Ico (i + 1) n,
          pairContrib pf a (i, j) = if a = j then - pf i a else 0 := by
        intro j _
        unfold pairContrib
        rw [if_neg (by simpa using fun h => hia h.symm)]
        by_cases haj : a = j
        · rw [if_pos haj, if_pos haj, haj]
        · rw [if_neg haj, if_neg haj]
      rw [Finset.sum_congr rfl hc, Finset.sum_ite_eq]
      by_cases hlt : i < a
      · rw [if_pos (by simp [Finset.mem_Ico]; omega), if_pos hlt]
      · rw [if_neg (by simp [Finset.mem_Ico]; omega), if_neg hlt]
  rw [Finset.sum_congr rfl hterm]
  rw [← Finset.add_sum_erase _ _ (Finset.mem_range.mpr ha), if_pos rfl]
  have herase : ∀ i ∈ (Finset.range n).erase a,
      (if i = a then ∑ j ∈ Finset.Ico (a + 1) n, pf a j
        else if i < a then - pf i a else 0)
        = if i < a then - pf i a else 0 := by
    intro i hi
    rw [if_neg (Finset.ne_of_mem_erase hi)]
  rw [Finset.sum_congr rfl herase]
  rw [← Finset.sum_filter]
  have hfil : ((Finset.range n).erase a).filter (fun i => i < a)
      = Finset.range a := by
    ext i
    simp only [Finset.mem_filter, Finset.mem_erase, Finset.mem_range]
    omega
  rw [hfil]
  have hneg : ∀ i ∈ Finset.range a, - pf i a = pf a i := by
    intro i _
    rw [hanti i a]
  rw [Finset.sum_congr rfl hneg]
  have hsplit : (Finset.range n).erase a
      = Finset.range a ∪ Finset.Ico (a + 1) n := by
    ext i
    simp only [Finset.mem_erase, Finset.mem_range, Finset.mem_union,
      Finset.mem_Ico]
    omega
  rw [hsplit, Finset.sum_union (by
    rw [Finset.disjoint_left]
    intro i hi hi2
    simp only [Finset.mem_range] at hi
    simp only [Finset.mem_Ico] at hi2
    omega)]
  rw [add_comm]

/-- The pairwise force is antisymmetric: `F(j,i) = -F(i,j)`. -/
theorem pairForce_antisymm {α : Type} [Field α] (sqrtF : α → α)
    (ps : List (Particle α)) (i j : ℕ) :
    pairForce sqrtF ps j i = - pairForce sqrtF ps i j := by
  simp only [pairForce, pairR2, softeningSq]
  have harg : ((ps.getD i default).x - (ps.getD j default).x) *
        ((ps.getD i default).x - (ps.getD j default).x)
      + ((ps.getD i default).y - (ps.getD j default).y) *
        ((ps.getD i default).y - (ps.getD j default).y)
      + ((ps.getD i default).z - (ps.getD j default).z) *
        ((ps.getD i default).z - (ps.getD j default).z) + 2 * 2
      = ((ps.getD j default).x - (ps.getD i default).x) *
        ((ps.getD j default).x - (ps.getD i default).x)
      + ((ps.getD j default).y - (ps.getD i default).y) *
        ((ps.getD j default).y - (ps.getD i default).y)
      + ((ps.getD j default).z - (ps.getD i default).z) *
        ((ps.getD j default).z - (ps.getD i default).z) + 2 * 2 := by
    ring
  rw [harg]
  simp only [Prod.neg_mk, Prod.mk.injEq]
  refine ⟨?_, ?_, ?_⟩ <;> ring

/-- Claim C3: over exact real arithmetic, the symmetric pairwise loop of
`computeForcesCPU` computes, for every particle index, exactly the reference
force of the specification, `F(i) = Σ_{j≠i} G·mᵢ·mⱼ·(pⱼ-pᵢ) /
(|pⱼ-pᵢ|² + ε²)^{3/2}` with `G = 1` and `ε = 2`. -/
theorem computeForcesCPU_eq_refForce (ps : List (Particle ℝ))
    (sqrtF : ℝ → ℝ) (hs : ∀ x, 0 ≤ x → sqrtF x = Real.sqrt x) (i : ℕ)
    (hi : i < ps.length) :
    computeForcesCPU sqrtF ps i = refForce ps i := by
  rw [computeForcesCPU_eq_foldPairs]
  rw [foldl_applyPairForce (pairForce sqrtF ps) (pairList ps.length)
    (fun _ => 0) i]
  rw [sum_pairContrib (pairForce sqrtF ps)
    (fun a b => pairForce_antisymm sqrtF ps a b) ps.length i hi]
  rw [zero_add]
  unfold refForce
  apply Finset.sum_congr rfl
  intro j hj
  dsimp only
  have hr2pos : 0 < pairR2 ps i j := by
    simp only [pairR2, softeningSq]
    nlinarith [mul_self_nonneg ((ps.getD j default).x - (ps.getD i default).x),
      mul_self_nonneg ((ps.getD j default).y - (ps.getD i default).y),
      mul_self_nonneg ((ps.getD j default).z - (ps.getD i default).z)]
  have hsq : sqrtF (pairR2 ps i j) = Real.sqrt (pairR2 ps i j) :=
    hs _ hr2pos.le
  have hbase : ((ps.getD j default).x - (ps.getD i default).x) ^ 2
      + ((ps.getD j default).y - (ps.getD i default).y) ^ 2
      + ((ps.getD j default).z - (ps.getD i default).z) ^ 2 + 2 ^ 2
      = pairR2 ps i j := by
    simp only [pairR2, softeningSq]
    ring
  have hden : (((ps.getD j default).x - (ps.getD i default).x) ^ 2
      + ((ps.getD j default).y - (ps.getD i default).y) ^ 2
      + ((ps.getD j default).z - (ps.getD i default).z) ^ 2 + 2 ^ 2)
      ^ ((3 : ℝ) / 2)
      = pairR2 ps i j * Real.sqrt (pairR2 ps i j) := by
    rw [hbase, show (3 : ℝ) / 2 = 1 + 1 / 2 from by norm_num,
      Real.rpow_add hr2pos, Real.rpow_one, ← Real.sqrt_eq_rpow]
  rw [hden]
  simp only [pairForce]
  rw [hsq]
  simp only [Prod.mk.injEq]
  refine ⟨?_, ?_, ?_⟩ <;> ring

/-- Witness for C3: two concrete particles, the real square root, index 0. -/
theorem computeForcesCPU_eq_refForce_witness :
    computeForcesCPU Real.sqrt
        [(⟨0, 0, 0, 0, 0, 0, 1⟩ : Particle ℝ), ⟨1, 0, 0, 0, 0, 0, 2⟩] 0
      = refForce
        [(⟨0, 0, 0, 0, 0, 0, 1⟩ : Particle ℝ), ⟨1, 0, 0, 0, 0, 0, 2⟩] 0 :=
  computeForcesCPU_eq_refForce _ Real.sqrt (fun x _ => rfl) 0 (by norm_num)

/-- Claim C10: for every buffer, index and particle record whose mass field is
omitted, `setParticle` stores mass = 1 for that particle, and the explicitly
supplied components are stored at their layout offsets unchanged (the padding
slot at offset 3 is untouched and the buffer length is preserved). -/
theorem setParticle_defaults_mass_to_one (data : List ℚ) (index : ℕ)
    (p : ParticleRecord ℚ) (h : index * 8 + 8 ≤ data.length)
    (hm : p.mass = none) :
    (setParticle data index p).getD (index * 8 + OFFSET_X) 0 = p.x ∧
    (setParticle data index p).getD (index * 8 + OFFSET_Y) 0 = p.y ∧
    (setParticle data index p).getD (index * 8 + OFFSET_Z) 0 = p.z ∧
    (setParticle data index p).getD (index * 8 + OFFSET_VX) 0 = p.vx ∧
    (setParticle data index p).getD (index * 8 + OFFSET_VY) 0 = p.vy ∧
    (setParticle data index p).getD (index * 8 + OFFSET_VZ) 0 = p.vz ∧
    (setParticle data index p).getD (index * 8 + OFFSET_MASS) 0 = 1 ∧
    (setParticle data index p).getD (index * 8 + 3) 0 = data.getD (index * 8 + 3) 0 ∧
    (setParticle data index p).length = data.length := by
  have h0 : index * 8 < data.length := by omega
  have h1 : index * 8 + 1 < data.length := by omega
  have h2 : index * 8 + 2 < data.length := by omega
  have h3 : index * 8 + 4 < data.length := by omega
  have h4 : index * 8 + 5 < data.length := by omega
  have h5 : index * 8 + 6 < data.length := by omega
  have h6 : index * 8 + 7 < data.length := by omega
  refine ⟨?_, ?_, ?_, ?_, ?_, ?_, ?_, ?_, ?_⟩ <;>
    simp [setParticle, FLOATS_PER_PARTICLE, OFFSET_X, OFFSET_Y, OFFSET_Z,
      OFFSET_VX, OFFSET_VY, OFFSET_VZ, OFFSET_MASS, hm, List.getD,
      List.getElem?_set, h0, h1, h2, h3, h4, h5, h6]

/-- Witness for C10: a concrete two-particle buffer with the mass field
omitted at index 1. -/
theorem setParticle_defaults_mass_to_one_witness :
    (setParticle (List.replicate 16 (0 : ℚ)) 1
        ⟨2, 3, 4, 5, 6, 7, none⟩).getD (1 * 8 + OFFSET_X) 0 = 2 ∧
    (setParticle (List.replicate 16 (0 : ℚ)) 1
        ⟨2, 3, 4, 5, 6, 7, none⟩).getD (1 * 8 + OFFSET_Y) 0 = 3 ∧
    (setParticle (List.replicate 16 (0 : ℚ)) 1
        ⟨2, 3, 4, 5, 6, 7, none⟩).getD (1 * 8 + OFFSET_Z) 0 = 4 ∧
    (setParticle (List.replicate 16 (0 : ℚ)) 1
        ⟨2, 3, 4, 5, 6, 7, none⟩).getD (1 * 8 + OFFSET_VX) 0 = 5 ∧
    (setParticle (List.replicate 16 (0 : ℚ)) 1
        ⟨2, 3, 4, 5, 6, 7, none⟩).getD (1 * 8 + OFFSET_VY) 0 = 6 ∧
    (setParticle (List.replicate 16 (0 : ℚ)) 1
        ⟨2, 3, 4, 5, 6, 7, none⟩).getD (1 * 8 + OFFSET_VZ) 0 = 7 ∧
    (setParticle (List.replicate 16 (0 : ℚ)) 1
        ⟨2, 3, 4, 5, 6, 7, none⟩).getD (1 * 8 + OFFSET_MASS) 0 = 1 ∧
    (setParticle (List.replicate 16 (0 : ℚ)) 1
        ⟨2, 3, 4, 5, 6, 7, none⟩).getD (1 * 8 + 3) 0 =
      (List.replicate 16 (0 : ℚ)).getD (1 * 8 + 3) 0 ∧
    (setParticle (List.replicate 16 (0 : ℚ)) 1
        ⟨2, 3, 4, 5, 6, 7, none⟩).length = (List.replicate 16 (0 : ℚ)).length :=
  setParticle_defaults_mass_to_one (List.replicate 16 0) 1 ⟨2, 3, 4, 5, 6, 7, none⟩
    (by simp) rfl

end NBody
